import Mathlib

/-!
Verification of the cron-control runner (`runner.go`) against its
natural-language specification.  The Go functions are shallowly embedded as
pure Lean functions: machine integers become `Nat`/`Int` with explicit
two's-complement wrap where Go wraps, the wall clock and the random source
become explicit parameters, and fallible calls return `Except`/`Option`.
Definitions come first, followed by the theorems about them.
-/

namespace Runner

/-- Modulus of Go's 64-bit integers, `2 ^ 64`. -/
def twoP64 : Nat := 18446744073709551616

/-- Reinterpret the low 64 bits of a natural number as a signed
two's-complement 64-bit value, as Go does when a `uint64` flows into an
`int64` / `time.Duration` computation. -/
def toInt64 (n : Nat) : Int :=
  let m := n % twoP64
  if m < 9223372036854775808 then (m : Int) else (m : Int) - (twoP64 : Int)

/-- The `siteInfo` struct of runner.go (decoded from `get-info` output). -/
structure SiteInfo where
  Multisite : Int
  Siteurl : String
  Disabled : Int
deriving Repr, DecidableEq

/-- The `site` struct of runner.go. -/
structure Site where
  URL : String
deriving Repr, DecidableEq

/-- The `event` struct of runner.go. -/
structure Event where
  URL : String
  Timestamp : Int
  Action : String
  Instance : String
deriving Repr, DecidableEq

/-- Result of one call to the back-off governor `shouldGetSites`:
the returned boolean, the value of the global `disabledLoopCount` counter
after the call, and the nanoseconds actually slept (`0` when the code
skips `time.Sleep`). -/
structure GovResult where
  run : Bool
  disabledLoopCount : Nat
  sleepNs : Int
deriving Repr, DecidableEq

/-- One hour in nanoseconds (`time.Hour`). -/
def hourNs : Int := 3600000000000

/-- Shallow embedding of `shouldGetSites` (runner.go lines 244-273).
`disabled` is the argument, `nowUnix` the value of `time.Now().Unix()`,
and `disabledLoopCount` the value of the global counter before the call
(a `uint64`, kept as a `Nat` below `2 ^ 64`).  `time.Minute * 3 *
time.Duration(count)` is a wrapping `int64` product, embedded through
`toInt64`; the seconds value divides by 1000 three times, truncating
toward zero as Go's integer division does. -/
def shouldGetSites (disabled : Int) (nowUnix : Int) (disabledLoopCount : Nat) :
    GovResult :=
  if disabled = 0 then
    { run := true, disabledLoopCount := 0, sleepNs := 0 }
  else
    let disabledSleep : Int := toInt64 (180000000000 * disabledLoopCount)
    let disabledSleepSeconds : Int := ((disabledSleep.tdiv 1000).tdiv 1000).tdiv 1000
    let count' : Nat :=
      if 1 < disabled ∧ nowUnix + disabledSleepSeconds > disabled then 0
      else if disabledSleep > hourNs then 0
      else (disabledLoopCount + 1) % twoP64
    { run := false, disabledLoopCount := count',
      sleepNs := if disabledSleep > 0 then disabledSleep else 0 }

/-- Iterate the governor `n` times with a fixed `disabled` value and clock,
threading the counter through; returns the list of `(returned, slept)`
observations and the final counter. -/
def govTrace (disabled nowUnix : Int) : Nat → Nat → List (Bool × Int) × Nat
  | 0, count => ([], count)
  | n + 1, count =>
    let r := shouldGetSites disabled nowUnix count
    let rest := govTrace disabled nowUnix n r.disabledLoopCount
    ((r.run, r.sleepNs) :: rest.1, rest.2)

/-- Nanoseconds per second (`time.Second.Nanoseconds()`). -/
def nsPerSec : Nat := 1000000000

/-- Shallow embedding of `waitForEpoch` (runner.go lines 461-497).
`nowNano` is `time.Now().UnixNano()` (read once in the model), `randVal`
the value `rand.Int63n(tEpochNano)` would produce when the label is not
yet in `gRandomDeltaMap` (its contract: a value in `[0, tEpochNano)`), and
`randomDeltaMap` the global per-label offset map.  The result is the
target instant `tNextEpoch` toward which the function sleeps, together
with the updated map. -/
def waitForEpoch (whom : String) (epoch_sec : Nat) (nowNano : Nat)
    (randomDeltaMap : List (String × Nat)) (randVal : Nat) :
    Nat × List (String × Nat) :=
  let tEpochNano := epoch_sec * nsPerSec
  let tEpochDelta0 := tEpochNano - nowNano % tEpochNano
  let tEpochDelta :=
    if tEpochDelta0 < nsPerSec then tEpochDelta0 + tEpochNano else tEpochDelta0
  let map' :=
    match randomDeltaMap.lookup whom with
    | some _ => randomDeltaMap
    | none => (whom, randVal) :: randomDeltaMap
  let delta := (map'.lookup whom).getD 0
  (nowNano + tEpochDelta + delta, map')

/-- One in-place swap of positions `i` and `j` of a list (the Go slice swap
`jsonRes[i], jsonRes[j] = jsonRes[j], jsonRes[i]`); identity when an index
is out of range (in the source both indices are always in range). -/
def fyStep {α : Type} (l : List α) (i j : Nat) : List α :=
  if h : i < l.length ∧ j < l.length then
    (l.set i (l.get ⟨j, h.2⟩)).set j (l.get ⟨i, h.1⟩)
  else l

/-- The in-order Fisher-Yates pass of `getMultisiteSites` (runner.go
lines 290-294): for each index `i` from 0 upward, swap position `i` with
position `choose i` (in the source `choose i = rand.Intn(i + 1)`, a value
in `[0, i]`). -/
def fyShuffle {α : Type} (choose : Nat → Nat) (l : List α) : List α :=
  (List.range l.length).foldl (fun acc i => fyStep acc i (choose i)) l

/-- Shallow embedding of `getMultisiteSites` (runner.go lines 275-297).
`cmdRes` is the result of the `site list` invocation, `decode` the JSON
decoder, `choose` the stream of `rand.Intn(i + 1)` draws of the shuffle. -/
def getMultisiteSites (cmdRes : Except String String)
    (decode : String → Except String (List Site)) (choose : Nat → Nat) :
    Except String (List Site) :=
  match cmdRes with
  | .error e => .error e
  | .ok raw =>
    match decode raw with
    | .error e => .error e
    | .ok jsonRes => .ok (fyShuffle choose jsonRes)

/-- The full argument vector `runWpCliCmd` passes to the external tool
(runner.go lines 395-398): the subcommand followed by `--allow-root`,
`--quiet`, `--path=<wp_path>`, and, iff `network > 0`,
`--network=<network>`. -/
def wpCliArgs (wpPath : String) (wpNetwork : Int) (subcommand : List String) :
    List String :=
  (subcommand ++ ["--allow-root", "--quiet", "--path=" ++ wpPath]) ++
    (if wpNetwork > 0 then ["--network=" ++ toString wpNetwork] else [])

/-- Shallow embedding of `runWpCliCmd` (runner.go lines 393-414).
`execTool` models spawning the configured binary: it maps a full argument
vector to the combined stdout+stderr text and the child's exit code;
`CombinedOutput` yields a non-nil error exactly for a non-zero exit. -/
def runWpCliCmd (wpPath : String) (wpNetwork : Int)
    (execTool : List String → String × Nat) (subcommand : List String) :
    String × Option Nat :=
  let res := execTool (wpCliArgs wpPath wpNetwork subcommand)
  (res.1, if res.2 = 0 then none else some res.2)

/-- The subcommand `runEvents` builds for one event (runner.go lines
364-365). -/
def runSubcommand (e : Event) : List String :=
  ["cron-control", "orchestrate", "runner-only", "run",
   "--timestamp=" ++ toString e.Timestamp, "--action=" ++ e.Action,
   "--instance=" ++ e.Instance, "--url=" ++ e.URL]

/-- Observable state an event worker can mutate: the two heartbeat
counters (`uint64`, wrapping) and the shutdown flag (never written by the
worker). -/
structure WorkerState where
  eventRunSuccessCount : Nat
  eventRunErrCount : Nat
  gRestart : Bool
deriving Repr, DecidableEq

/-- One iteration of the `runEvents` worker loop body (runner.go lines
351-386) on a received event.  `nowUnix` is the clock read for the
premature check; `runOk e` tells whether the external run invocation for
`e` exits zero.  Returns the state afterward and the run subcommands
invoked (none when the event is skipped or the worker exits). -/
def runEventsStep (heartbeatInt : Int) (nowUnix : Int)
    (runOk : Event → Bool) (s : WorkerState) (e : Event) :
    WorkerState × List (List String) :=
  if s.gRestart then (s, [])
  else if e.Timestamp > nowUnix then (s, [])
  else if runOk e then
    ({ s with eventRunSuccessCount :=
        if heartbeatInt > 0 then (s.eventRunSuccessCount + 1) % twoP64
        else s.eventRunSuccessCount }, [runSubcommand e])
  else
    ({ s with eventRunErrCount :=
        if heartbeatInt > 0 then (s.eventRunErrCount + 1) % twoP64
        else s.eventRunErrCount }, [runSubcommand e])

/-- Shallow embedding of `getInstanceInfo` (runner.go lines 226-242).
`cmdRes` is the result of the `get-info` invocation, `decode` the JSON
decode of its output into a `siteInfo` array.  The Go code returns
`jsonRes[0]`; the embedding makes that first-element access total by
returning `none` when the decoded array is empty, the input on which the
Go index expression is out of range. -/
def getInstanceInfo (cmdRes : Except String String)
    (decode : String → Except String (List SiteInfo)) :
    Option (Except String SiteInfo) :=
  match cmdRes with
  | .error e => some (.error e)
  | .ok raw =>
    match decode raw with
    | .error e => some (.error e)
    | .ok jsonRes => (jsonRes.get? 0).map Except.ok

/-- Result of one `getSites` cycle (runner.go lines 200-224): the returned
site list (`none` embeds Go's nil slice), the returned error, the
governor's result, and the `disabled` value the governor was invoked
with. -/
structure GetSitesResult where
  sites : Option (List Site)
  err : Option String
  gov : GovResult
  govDisabledArg : Int
deriving Repr, DecidableEq

/-- Shallow embedding of `getSites` (runner.go lines 200-224).  `infoRes`
is the outcome of `getInstanceInfo` (an error when its invocation or
decode failed; the struct it returns alongside an error is the zero
`siteInfo`), `nowUnix` and `count` are the governor's clock and counter,
and `siteListRes`, `decodeSites`, `choose` are the inputs of
`getMultisiteSites`. -/
def getSites (infoRes : Except String SiteInfo) (nowUnix : Int) (count : Nat)
    (siteListRes : Except String String)
    (decodeSites : String → Except String (List Site)) (choose : Nat → Nat) :
    GetSitesResult :=
  let infoErr : Option String :=
    match infoRes with
    | .ok _ => none
    | .error e => some e
  let info0 : SiteInfo :=
    match infoRes with
    | .ok si => si
    | .error _ => { Multisite := 0, Siteurl := "", Disabled := 0 }
  let info : SiteInfo :=
    if infoErr.isSome then { info0 with Disabled := 1 } else info0
  let g := shouldGetSites info.Disabled nowUnix count
  if g.run = false then
    { sites := none, err := infoErr, gov := g, govDisabledArg := info.Disabled }
  else if info.Multisite = 1 then
    match getMultisiteSites siteListRes decodeSites choose with
    | .ok sites =>
      { sites := some sites, err := none, gov := g,
        govDisabledArg := info.Disabled }
    | .error e =>
      { sites := none, err := some e, gov := g,
        govDisabledArg := info.Disabled }
  else
    { sites := some [{ URL := info.Siteurl }], err := none, gov := g,
      govDisabledArg := info.Disabled }

/-- Observable actions of the heartbeat / drain controller: a heartbeat
log line with the read-and-reset counter values, a sentinel empty `Site`
pushed to the sites channel, a sentinel empty `Event` pushed to the event
channel, and process termination with exit code 0. -/
inductive HbAction where
  | logLine (succeeded errored : Nat)
  | sentinelSite
  | sentinelEvent
  | exitZero
deriving Repr, DecidableEq

/-- One drain pass (runner.go lines 173-189): a sentinel `Site` for every
still-live event retriever, then a sentinel `Event` for every still-live
event worker. -/
def drainStep (retrievers workers : List Bool) : List HbAction :=
  (retrievers.filter id).map (fun _ => HbAction.sentinelSite) ++
    (workers.filter id).map (fun _ => HbAction.sentinelEvent)

/-- The drain loop (runner.go lines 171-197): repeat drain passes over the
liveness registries `live` (indexed by poll round `k`) until a pass finds
no live worker, then exit 0; `fuel` bounds the unrolling. -/
def drainLoop (live : Nat → List Bool × List Bool) : Nat → Nat → List HbAction
  | _, 0 => []
  | k, fuel + 1 =>
    let acts := drainStep (live k).1 (live k).2
    if acts.isEmpty then [HbAction.exitZero]
    else acts ++ drainLoop live (k + 1) fuel

/-- The phase-1 waiting loop of `heartbeat`: at round `k` it breaks out
when the shutdown flag is observed; otherwise, in the emitting variant
only, it reads and resets the counters and produces one heartbeat line. -/
def hbWaitLoop (gRestart : Nat → Bool) (emit : Bool)
    (counters : Nat → Nat × Nat) : Nat → Nat → List HbAction
  | _, 0 => []
  | k, fuel + 1 =>
    if gRestart k then []
    else
      (if emit then [HbAction.logLine (counters k).1 (counters k).2] else []) ++
        hbWaitLoop gRestart emit counters (k + 1) fuel

/-- Shallow embedding of the control flow of `heartbeat` (runner.go lines
146-198) as the list of observable actions it performs: with
`heartbeatInt == 0` it runs the non-emitting wait loop and returns when
the shutdown flag is observed; otherwise it runs the emitting loop and,
after that loop breaks, enters the drain loop. -/
def heartbeat (heartbeatInt : Int) (gRestart : Nat → Bool)
    (counters : Nat → Nat × Nat) (live : Nat → List Bool × List Bool)
    (fuel : Nat) : List HbAction :=
  if heartbeatInt = 0 then hbWaitLoop gRestart false counters 0 fuel
  else hbWaitLoop gRestart true counters 0 fuel ++ drainLoop live 0 fuel

/-- Values below `2 ^ 63` pass through the `uint64` → `int64`
reinterpretation unchanged. -/
theorem toInt64_of_lt (n : Nat) (h : n < 9223372036854775808) :
    toInt64 n = n := by
  have h2 : n < twoP64 := by unfold twoP64; omega
  simp only [toInt64, Nat.mod_eq_of_lt h2]
  rw [if_pos h]

/-- Dividing `180000000000 * c` by 1000 three times, truncating toward
zero, yields `180 * c`. -/
theorem tdiv_thousands (c : Nat) :
    ((((180000000000 : Int) * c).tdiv 1000).tdiv 1000).tdiv 1000 = 180 * c := by
  have h1 : (180000000000 : Int) * c = 180000000 * c * 1000 := by ring
  rw [h1, Int.mul_tdiv_cancel _ (by norm_num)]
  have h2 : (180000000 : Int) * c = 180000 * c * 1000 := by ring
  rw [h2, Int.mul_tdiv_cancel _ (by norm_num)]
  have h3 : (180000 : Int) * c = 180 * c * 1000 := by ring
  rw [h3, Int.mul_tdiv_cancel _ (by norm_num)]

/-- C4: when `disabled == 0` the governor resets `disabledLoopCount` to 0,
performs no sleep, and returns true, for every clock value and prior
counter value. -/
theorem shouldGetSites_enabled (nowUnix : Int) (count : Nat) :
    shouldGetSites 0 nowUnix count =
      { run := true, disabledLoopCount := 0, sleepNs := 0 } := by
  simp [shouldGetSites]

/-- C1 counterexample: on ten consecutive calls with `disabled == 1`
starting from counter 0, the tenth sleep is 27 minutes (1620000000000 ns),
not 0 as the claim's sequence states: the reset branch fires only when the
computed sleep exceeds one hour, which a 27-minute sleep does not. -/
theorem govTrace_S3_counterexample :
    ((govTrace 1 0 10 0).1.map Prod.snd).get? 9 = some 1620000000000 ∧
      (1620000000000 : Int) ≠ 0 := by decide

/-- C1 amended: ten consecutive calls with `disabled == 1` from counter 0
return false every time and sleep `0, 3m, 6m, 9m, 12m, 15m, 18m, 21m, 24m,
27m` (in nanoseconds); the counter is incremented on each call, ending at
10, because no computed sleep in this range exceeds one hour. -/
theorem govTrace_S3_amended :
    govTrace 1 0 10 0 =
      ([(false, 0), (false, 180000000000), (false, 360000000000),
        (false, 540000000000), (false, 720000000000), (false, 900000000000),
        (false, 1080000000000), (false, 1260000000000), (false, 1440000000000),
        (false, 1620000000000)], 10) := by decide

/-- C3 counterexample: with `Disabled = 1000`, `now = 1000`, counter 0, we
have `now + sleep ≥ Disabled` (sleep is 0), yet the code does not reset the
counter: the comparison in the code is strict, so the counter becomes 1. -/
theorem shouldGetSites_until_counterexample :
    1000 + (shouldGetSites 1000 1000 0).sleepNs ≥ 1000 ∧
      (shouldGetSites 1000 1000 0).disabledLoopCount ≠ 0 := by decide

/-- C3 amended: for `disabled > 1` (a disabled-until timestamp), the
governor returns false and sleeps `3 minutes × previous counter`; the
counter is reset exactly when `now + sleep` exceeds the timestamp
STRICTLY, or when the computed sleep exceeds one hour; otherwise it is
incremented.  (Stated below the `int64` overflow bound of the sleep
product.) -/
theorem shouldGetSites_disabled_until (disabled nowUnix : Int) (count : Nat)
    (hd : 1 < disabled) (hov : 180000000000 * count < 9223372036854775808) :
    (shouldGetSites disabled nowUnix count).run = false ∧
    (shouldGetSites disabled nowUnix count).sleepNs = 180000000000 * (count : Int) ∧
    (shouldGetSites disabled nowUnix count).disabledLoopCount =
      (if nowUnix + 180 * (count : Int) > disabled ∨ 3600 < 180 * count then 0
       else (count + 1) % twoP64) := by
  have hne : ¬ (disabled = 0) := by omega
  have hcast : ((180000000000 * count : Nat) : Int) = 180000000000 * (count : Int) := by
    push_cast; ring
  have hsleep : toInt64 (180000000000 * count) = 180000000000 * (count : Int) := by
    rw [toInt64_of_lt _ hov, hcast]
  simp only [shouldGetSites, hne, if_false, hsleep, tdiv_thousands]
  refine ⟨trivial, ?_, ?_⟩
  · rcases Nat.eq_zero_or_pos count with hc | hc
    · subst hc; norm_num
    · have : (0 : Int) < 180000000000 * (count : Int) := by positivity
      rw [if_pos this]
  · have hhour : ((180000000000 * (count : Int) > hourNs) ↔ (3600 < 180 * count)) := by
      unfold hourNs
      constructor
      · intro h
        by_contra hcon
        push_neg at hcon
        have : (180 : Int) * count ≤ 3600 := by exact_mod_cast hcon
        nlinarith
      · intro h
        have : (3600 : Int) < 180 * count := by exact_mod_cast h
        nlinarith
    by_cases h1 : nowUnix + 180 * (count : Int) > disabled
    · rw [if_pos ⟨hd, h1⟩, if_pos (Or.inl h1)]
    · rw [if_neg (by tauto)]
      by_cases h2 : 180000000000 * (count : Int) > hourNs
      · rw [if_pos h2, if_pos (Or.inr (hhour.mp h2))]
      · rw [if_neg h2, if_neg (by rw [hhour] at h2; tauto)]

/-- Witness for the amended C3 at the spec's S4 input: `Disabled = 100`,
`now = 1000`, counter 0: reset, sleep 0, return false. -/
theorem shouldGetSites_disabled_until_witness :
    (shouldGetSites 100 1000 0).run = false ∧
    (shouldGetSites 100 1000 0).sleepNs = 180000000000 * ((0 : Nat) : Int) ∧
    (shouldGetSites 100 1000 0).disabledLoopCount =
      (if (1000 : Int) + 180 * ((0 : Nat) : Int) > 100 ∨ 3600 < 180 * 0 then 0
       else (0 + 1) % twoP64) :=
  shouldGetSites_disabled_until 100 1000 0 (by norm_num) (by norm_num)

/-- The arithmetic core of the epoch wait: adding the distance to the next
multiple of `p` (plus one extra period when the distance is under one
second) and then an offset below `p` lands on the offset modulo `p`, at
least one second in the future. -/
theorem waitTarget_aligned (p now off : Nat) (hp : 0 < p) (hns : nsPerSec ≤ p)
    (hoff : off < p) :
    (now + (if p - now % p < nsPerSec then p - now % p + p else p - now % p) + off)
        % p = off ∧
      now + nsPerSec ≤
        now + (if p - now % p < nsPerSec then p - now % p + p else p - now % p)
          + off := by
  have hd := Nat.div_add_mod now p
  have hm := Nat.mod_lt now hp
  set D := if p - now % p < nsPerSec then p - now % p + p else p - now % p with hD
  have hge : nsPerSec ≤ D := by
    rw [hD]; split <;> omega
  constructor
  · obtain ⟨k, hk⟩ : ∃ k, now + D = p * k := by
      by_cases hsplit : p - now % p < nsPerSec
      · refine ⟨now / p + 2, ?_⟩
        have h2 : p * (now / p + 2) = p * (now / p) + p + p := by ring
        rw [hD, if_pos hsplit]; omega
      · refine ⟨now / p + 1, ?_⟩
        have h2 : p * (now / p + 1) = p * (now / p) + p := by ring
        rw [hD, if_neg hsplit]; omega
    have h3 : now + D + off = p * k + off := by omega
    rw [h3, Nat.mul_add_mod, Nat.mod_eq_of_lt hoff]
  · omega

/-- C2: the Periodic Waiter's target instant `T` satisfies `T ≥ now + 1 s`
and `T mod period ≡ offset(label)` in nanoseconds; the offset is recorded
in the map on first use of the label and is left untouched (hence
identical) on every later call with that label.  `hr` is the contract of
`rand.Int63n(tEpochNano)`, `hm` states that every offset already stored
for the label came from the same contract. -/
theorem waitForEpoch_contract (whom : String) (epoch_sec nowNano randVal : Nat)
    (map : List (String × Nat)) (hp : 1 ≤ epoch_sec)
    (hr : randVal < epoch_sec * nsPerSec)
    (hm : ∀ d, map.lookup whom = some d → d < epoch_sec * nsPerSec) :
    ((waitForEpoch whom epoch_sec nowNano map randVal).2.lookup whom).isSome = true ∧
    (waitForEpoch whom epoch_sec nowNano map randVal).1 % (epoch_sec * nsPerSec) =
      ((waitForEpoch whom epoch_sec nowNano map randVal).2.lookup whom).getD 0 ∧
    nowNano + nsPerSec ≤ (waitForEpoch whom epoch_sec nowNano map randVal).1 ∧
    (∀ d, map.lookup whom = some d →
      (waitForEpoch whom epoch_sec nowNano map randVal).2 = map ∧
      ((waitForEpoch whom epoch_sec nowNano map randVal).2.lookup whom).getD 0 = d) ∧
    (map.lookup whom = none →
      ((waitForEpoch whom epoch_sec nowNano map randVal).2.lookup whom).getD 0 =
        randVal) := by
  have hns : (0 : Nat) < nsPerSec := by norm_num [nsPerSec]
  have hp0 : 0 < epoch_sec * nsPerSec := Nat.mul_pos hp hns
  have hnsle : nsPerSec ≤ epoch_sec * nsPerSec := by
    calc nsPerSec = 1 * nsPerSec := (Nat.one_mul _).symm
    _ ≤ epoch_sec * nsPerSec := Nat.mul_le_mul_right _ hp
  rcases hcase : map.lookup whom with _ | d
  · have hself : (((whom, randVal) :: map).lookup whom) = some randVal := by
      simp [List.lookup]
    have halign := waitTarget_aligned (epoch_sec * nsPerSec) nowNano randVal hp0
      hnsle hr
    simp only [waitForEpoch, hcase, hself]
    refine ⟨rfl, ?_, ?_, ?_, ?_⟩
    · simpa using halign.1
    · simpa using halign.2
    · intro d hd; simp at hd
    · intro _; simp
  · have hdlt : d < epoch_sec * nsPerSec := hm d hcase
    have halign := waitTarget_aligned (epoch_sec * nsPerSec) nowNano d hp0
      hnsle hdlt
    simp only [waitForEpoch, hcase]
    refine ⟨rfl, ?_, ?_, ?_, ?_⟩
    · simpa using halign.1
    · simpa using halign.2
    · intro d' hd'
      cases hd'
      exact ⟨trivial, rfl⟩
    · intro h; simp at h

/-- Witness for C2 at a concrete first call: label `runEvents`, period 10 s,
clock 0, random offset 3, empty map. -/
theorem waitForEpoch_contract_witness :
    (waitForEpoch "runEvents" 10 0 [] 3).1 % (10 * nsPerSec) =
      ((waitForEpoch "runEvents" 10 0 [] 3).2.lookup "runEvents").getD 0 ∧
    0 + nsPerSec ≤ (waitForEpoch "runEvents" 10 0 [] 3).1 := by
  have h := waitForEpoch_contract "runEvents" 10 0 3 [] (by norm_num)
    (by norm_num [nsPerSec]) (by intro d hd; simp [List.lookup] at hd)
  exact ⟨h.2.1, h.2.2.1⟩

/-- Pulling the `k`-th element of a list to the front while writing `x`
into its place is a permutation of pushing `x` onto the front. -/
theorem get_cons_set_perm {α : Type} (t : List α) (k : Nat) (hk : k < t.length)
    (x : α) : (t.get ⟨k, hk⟩ :: t.set k x).Perm (x :: t) := by
  induction t generalizing k with
  | nil => cases hk
  | cons y s ih =>
    cases k with
    | zero => simpa using List.Perm.swap x y s
    | succ m =>
      have hm : m < s.length := by simpa using Nat.lt_of_succ_lt_succ hk
      have step1 := List.Perm.swap y (s.get ⟨m, hm⟩) (s.set m x)
      have step2 := List.Perm.cons y (ih m hm)
      have step3 := List.Perm.swap x y s
      simpa using (step1.trans step2).trans step3

/-- Swapping two in-range positions of a list yields a permutation. -/
theorem set_set_perm {α : Type} (l : List α) (i j : Nat) (hi : i < l.length)
    (hj : j < l.length) :
    ((l.set i (l.get ⟨j, hj⟩)).set j (l.get ⟨i, hi⟩)).Perm l := by
  induction l generalizing i j with
  | nil => cases hi
  | cons x t ih =>
    cases i with
    | zero =>
      cases j with
      | zero => simp
      | succ m =>
        have hm : m < t.length := by simpa using Nat.lt_of_succ_lt_succ hj
        simpa using get_cons_set_perm t m hm x
    | succ k =>
      have hk : k < t.length := by simpa using Nat.lt_of_succ_lt_succ hi
      cases j with
      | zero => simpa using get_cons_set_perm t k hk x
      | succ m =>
        have hm : m < t.length := by simpa using Nat.lt_of_succ_lt_succ hj
        simpa using List.Perm.cons x (ih k m hk hm)

/-- Every single Fisher-Yates step is a permutation. -/
theorem fyStep_perm {α : Type} (l : List α) (i j : Nat) : (fyStep l i j).Perm l := by
  unfold fyStep
  split
  · next h => exact set_set_perm l i j h.1 h.2
  · exact List.Perm.refl l

/-- The whole in-order Fisher-Yates pass is a permutation, for every
sequence of chosen swap targets. -/
theorem fyShuffle_perm {α : Type} (choose : Nat → Nat) (l : List α) :
    (fyShuffle choose l).Perm l := by
  suffices h : ∀ (idxs : List Nat) (acc : List α),
      (idxs.foldl (fun a i => fyStep a i (choose i)) acc).Perm acc by
    exact h (List.range l.length) l
  intro idxs
  induction idxs with
  | nil => intro acc; exact List.Perm.refl acc
  | cons i rest ih =>
    intro acc
    exact (ih (fyStep acc i (choose i))).trans (fyStep_perm acc i (choose i))

/-- C5: for every decoded upstream site list, the multisite enumeration
returns exactly the in-order Fisher-Yates pass over that list, and that
result is a permutation of the list: nothing is added, dropped, or
duplicated. -/
theorem getMultisiteSites_perm (raw : String)
    (decode : String → Except String (List Site)) (choose : Nat → Nat)
    (l : List Site) (h : decode raw = .ok l) :
    getMultisiteSites (.ok raw) decode choose = .ok (fyShuffle choose l) ∧
      (fyShuffle choose l).Perm l := by
  refine ⟨?_, fyShuffle_perm choose l⟩
  simp [getMultisiteSites, h]

/-- Witness for C5 on a concrete two-site list with swap targets all 0
(which reverses the pair). -/
theorem getMultisiteSites_perm_witness :
    getMultisiteSites (.ok "x")
        (fun _ => .ok [Site.mk "https://a.example", Site.mk "https://b.example"])
        (fun _ => 0) =
      .ok (fyShuffle (fun _ => 0)
        [Site.mk "https://a.example", Site.mk "https://b.example"]) ∧
      (fyShuffle (fun _ => 0)
          [Site.mk "https://a.example", Site.mk "https://b.example"]).Perm
        [Site.mk "https://a.example", Site.mk "https://b.example"] :=
  getMultisiteSites_perm "x"
    (fun _ => .ok [Site.mk "https://a.example", Site.mk "https://b.example"])
    (fun _ => 0) [Site.mk "https://a.example", Site.mk "https://b.example"] rfl

/-- C8: the Command Invoker passes the subcommand's arguments first,
followed in order by the fixed trailing arguments, with `--network`
present exactly when `network > 0`; it returns the captured combined
output, with an error indication exactly when the child exits
non-zero. -/
theorem runWpCliCmd_contract (wpPath : String) (wpNetwork : Int)
    (execTool : List String → String × Nat) (subcommand : List String) :
    (wpCliArgs wpPath wpNetwork subcommand).take subcommand.length = subcommand ∧
    (wpCliArgs wpPath wpNetwork subcommand).drop subcommand.length =
      ["--allow-root", "--quiet", "--path=" ++ wpPath] ++
        (if wpNetwork > 0 then ["--network=" ++ toString wpNetwork] else []) ∧
    (runWpCliCmd wpPath wpNetwork execTool subcommand).1 =
      (execTool (wpCliArgs wpPath wpNetwork subcommand)).1 ∧
    ((runWpCliCmd wpPath wpNetwork execTool subcommand).2.isSome ↔
      (execTool (wpCliArgs wpPath wpNetwork subcommand)).2 ≠ 0) := by
  refine ⟨?_, ?_, rfl, ?_⟩
  · unfold wpCliArgs
    rw [List.append_assoc]
    exact List.take_left subcommand _
  · unfold wpCliArgs
    rw [List.append_assoc]
    exact List.drop_left subcommand _
  · unfold runWpCliCmd
    by_cases h : (execTool (wpCliArgs wpPath wpNetwork subcommand)).2 = 0
    · simp [h]
    · simp [h]

/-- C6: an event whose timestamp is strictly in the future is skipped: the
worker makes no run invocation for it and leaves the success counter, the
error counter and the shutdown flag exactly as they were. -/
theorem runEvents_skips_premature (heartbeatInt nowUnix : Int)
    (runOk : Event → Bool) (s : WorkerState) (e : Event)
    (h : e.Timestamp > nowUnix) :
    runEventsStep heartbeatInt nowUnix runOk s e = (s, []) := by
  unfold runEventsStep
  by_cases hg : s.gRestart
  · simp [hg]
  · simp [hg, h]

/-- Witness for C6 at the spec's S5 input: `timestamp = now + 3600`. -/
theorem runEvents_skips_premature_witness :
    runEventsStep 60 1000 (fun _ => true)
        { eventRunSuccessCount := 0, eventRunErrCount := 0, gRestart := false }
        { URL := "https://a.example", Timestamp := 4600, Action := "x",
          Instance := "i1" } =
      ({ eventRunSuccessCount := 0, eventRunErrCount := 0, gRestart := false },
        []) :=
  runEvents_skips_premature 60 1000 (fun _ => true)
    { eventRunSuccessCount := 0, eventRunErrCount := 0, gRestart := false }
    { URL := "https://a.example", Timestamp := 4600, Action := "x",
      Instance := "i1" } (by norm_num)

/-- C10: when the external tool outputs an array that decodes to the empty
list, `getInstanceInfo` neither produces a `SiteInfo` nor takes an error
branch: the first-element access is out of bounds, `none` in the
embedding. -/
theorem getInstanceInfo_empty (raw : String)
    (decode : String → Except String (List SiteInfo))
    (h : decode raw = .ok []) :
    getInstanceInfo (.ok raw) decode = none := by
  simp [getInstanceInfo, h]

/-- Witness for C10: a decoder that accepts the literal output of an empty
JSON array. -/
theorem getInstanceInfo_empty_witness :
    getInstanceInfo (.ok "[]") (fun _ => .ok []) = none :=
  getInstanceInfo_empty "[]" (fun _ => .ok []) rfl

/-- C7: when `getInstanceInfo` fails (invocation or decode), the cycle
synthesizes `disabled = 1`: the governor is invoked with 1, no sites are
enumerated, and `getSites` returns no sites together with the error. -/
theorem getSites_info_error (e : String) (nowUnix : Int) (count : Nat)
    (siteListRes : Except String String)
    (decodeSites : String → Except String (List Site)) (choose : Nat → Nat) :
    getSites (.error e) nowUnix count siteListRes decodeSites choose =
      { sites := none, err := some e, gov := shouldGetSites 1 nowUnix count,
        govDisabledArg := 1 } := by
  have hrun : (shouldGetSites 1 nowUnix count).run = false := by
    simp [shouldGetSites]
  simp [getSites, hrun]

/-- The non-emitting wait loop performs no observable action at all. -/
theorem hbWaitLoop_silent (gRestart : Nat → Bool) (counters : Nat → Nat × Nat)
    (k fuel : Nat) : hbWaitLoop gRestart false counters k fuel = [] := by
  induction fuel generalizing k with
  | zero => rfl
  | succ n ih =>
    unfold hbWaitLoop
    split
    · rfl
    · simpa using ih (k + 1)

/-- C9: with the heartbeat configuration 0 the controller never executes
the drain phase: whatever the shutdown schedule, the counters and the
liveness registries, it performs no observable action — in particular it
pushes no sentinel `Site` or `Event` and never terminates the process
with exit code 0. -/
theorem heartbeat_zero_no_drain (gRestart : Nat → Bool)
    (counters : Nat → Nat × Nat) (live : Nat → List Bool × List Bool)
    (fuel : Nat) :
    heartbeat 0 gRestart counters live fuel = [] := by
  unfold heartbeat
  simp [hbWaitLoop_silent]

end Runner
